import Mathlib

/-!
Verification development for the kmon command/argument layer
(`src/util.rs`): the key-binding table `KEY_BINDINGS`, the clap-based
argument declaration in `parse_args`, and the external-command
primitive `exec_cmd`.

Embedding notes.
* Bytes are `Nat` values below 256; captured process output is a
  `List Nat` of bytes, decoded text a `List Char`.
* `exec_cmd` in Rust performs the OS spawn and then classifies the
  outcome.  The OS part is represented by a `Spawn` value (the result of
  `Command::output()`): either the captured `Output` of a completed
  process or the OS error message of a failed launch.  The pure
  classification logic of `exec_cmd` is embedded verbatim.
* `String::from_utf8` either returns the decoded text or fails; the
  Rust code calls `.expect`, which aborts the program on failure.  The
  embedded `exec_cmd` therefore returns `Option`: `none` models the
  fatal abort (panic), `some r` a normal return with `r` the
  `Result<String, String>` value.
-/

namespace Kmon

/-- The `KEY_BINDINGS` constant of `src/util.rs`: the fixed ordered list
of (key combination, description) pairs. -/
def KEY_BINDINGS : List (String × String) := [
  (r"'?', f1", r"help"),
  (r"right/left, h/l", r"switch between blocks"),
  (r"up/down, k/j", r"scroll up/down [selected block]"),
  (r"pgup/pgdown", r"scroll up/down [kernel activities]"),
  (r"</>", r"scroll up/down [module information]"),
  (r"ctrl-t/b, home/end", r"scroll to top/bottom [module list]"),
  (r"\, tab, backtab", r"show the next kernel information"),
  (r"/, s, enter", r"search a kernel module"),
  (r"+, i, insert", r"load a kernel module"),
  (r"-, u, backspace", r"unload the kernel module"),
  (r"x, b, delete", r"blacklist the kernel module"),
  (r"y/n", r"execute/cancel the command"),
  (r"c/v", r"copy/paste"),
  (r"r, f5", r"refresh"),
  (r"q, ctrl-c/d, esc", r"quit")]

/-- The Unicode White_Space code points: exactly the characters for
which Rust's `char::is_whitespace` (used by `str::trim_end`) holds. -/
def rustIsWhitespace (c : Char) : Bool :=
  [0x9, 0xA, 0xB, 0xC, 0xD, 0x20, 0x85, 0xA0, 0x1680,
   0x2000, 0x2001, 0x2002, 0x2003, 0x2004, 0x2005, 0x2006, 0x2007,
   0x2008, 0x2009, 0x200A, 0x2028, 0x2029, 0x202F, 0x205F,
   0x3000].contains c.toNat

/-- Rust's `str::trim_end`: remove the maximal run of trailing
whitespace characters; everything before it is kept verbatim. -/
def trim_end (s : List Char) : List Char :=
  (s.reverse.dropWhile rustIsWhitespace).reverse

/-- A UTF-8 continuation byte (`0x80 ..= 0xBF`). -/
def isCont (b : Nat) : Bool := 0x80 ≤ b && b ≤ 0xBF

/-- Strict UTF-8 decoding, as performed by Rust's `String::from_utf8`:
`some` of the decoded characters when the bytes are valid UTF-8
(rejecting overlong forms, surrogates and code points above
`0x10FFFF`), `none` otherwise.  Never substitutes replacement
characters. -/
def utf8Decode : List Nat → Option (List Char)
  | [] => some []
  | b :: rest =>
    if b ≤ 0x7F then
      (utf8Decode rest).map (fun cs => Char.ofNat b :: cs)
    else if 0xC2 ≤ b && b ≤ 0xDF then
      match rest with
      | b2 :: rest2 =>
        if isCont b2 then
          (utf8Decode rest2).map (fun cs =>
            Char.ofNat ((b - 0xC0) * 0x40 + (b2 - 0x80)) :: cs)
        else none
      | [] => none
    else if 0xE0 ≤ b && b ≤ 0xEF then
      match rest with
      | b2 :: b3 :: rest3 =>
        if (if b = 0xE0 then 0xA0 ≤ b2 && b2 ≤ 0xBF
            else if b = 0xED then 0x80 ≤ b2 && b2 ≤ 0x9F
            else isCont b2) && isCont b3 then
          (utf8Decode rest3).map (fun cs =>
            Char.ofNat (((b - 0xE0) * 0x40 + (b2 - 0x80)) * 0x40
              + (b3 - 0x80)) :: cs)
        else none
      | _ => none
    else if 0xF0 ≤ b && b ≤ 0xF4 then
      match rest with
      | b2 :: b3 :: b4 :: rest4 =>
        if (if b = 0xF0 then 0x90 ≤ b2 && b2 ≤ 0xBF
            else if b = 0xF4 then 0x80 ≤ b2 && b2 ≤ 0x8F
            else isCont b2) && isCont b3 && isCont b4 then
          (utf8Decode rest4).map (fun cs =>
            Char.ofNat ((((b - 0xF0) * 0x40 + (b2 - 0x80)) * 0x40
              + (b3 - 0x80)) * 0x40 + (b4 - 0x80)) :: cs)
        else none
      | _ => none
    else none

/-- The captured outcome of a completed process
(`std::process::Output`): its exit status collapsed to
`status.success()`, and the full stdout and stderr byte streams. -/
structure Output where
  success : Bool
  stdout : List Nat
  stderr : List Nat

/-- The result of `Command::output()`: either the captured output of a
process that ran to completion, or the OS launch error rendered as a
message (`e.to_string()`). -/
inductive Spawn where
  | ok (output : Output)
  | err (e : List Char)

/-- The classification logic of `exec_cmd` in `src/util.rs`, applied to
the spawn outcome.  `none` models the panic of `.expect("not UTF-8")`;
`some (Except.ok t)` is `Ok(t)`, `some (Except.error t)` is `Err(t)`. -/
def exec_cmd : Spawn → Option (Except (List Char) (List Char))
  | .ok output =>
    if output.success then
      (utf8Decode output.stdout).map (fun s => Except.ok (trim_end s))
    else
      (utf8Decode output.stderr).map (fun s => Except.error (trim_end s))
  | .err e => some (Except.error e)

/-- The text carried by a `CommandResult`, regardless of variant. -/
def resultText : Except (List Char) (List Char) → List Char
  | .ok t => t
  | .error t => t

/-- One clap `Arg` declaration, as built in `parse_args`: its name, its
short and long option forms, whether it takes a value, and its default
value. -/
structure Arg where
  name : String
  short : Option String
  long : Option String
  takes_value : Bool
  default_value : Option String

/-- The `color` argument declared in `parse_args` (`src/util.rs`). -/
def color_arg : Arg :=
  ⟨r"color", some (r"c"), some (r"color"), true, some (r"darkgray")⟩

/-- The `rate` argument declared in `parse_args`: short `t`, long
`tickrate`, default value `250`. -/
def rate_arg : Arg :=
  ⟨r"rate", some (r"t"), some (r"tickrate"), true, some (r"250")⟩

/-- The `reverse` flag declared in `parse_args`. -/
def reverse_arg : Arg :=
  ⟨r"reverse", some (r"r"), some (r"reverse"), false, none⟩

/-- The `size` flag of the `sort` subcommand. -/
def size_arg : Arg := ⟨r"size", some (r"s"), some (r"size"), false, none⟩

/-- The `name` flag of the `sort` subcommand. -/
def name_arg : Arg := ⟨r"name", some (r"n"), some (r"name"), false, none⟩

/-- The top-level arguments declared in `parse_args`. -/
def app_args : List Arg := [color_arg, rate_arg, reverse_arg]

/-- The arguments of the `sort` subcommand declared in `parse_args`. -/
def sort_args : List Arg := [size_arg, name_arg]

/-- The long-option name carried by a token of the form `--NAME`. -/
def longOf (tok : String) : Option String :=
  match tok.toList with
  | '-' :: '-' :: rest => some (String.mk rest)
  | _ => none

/-- The short-option name carried by a token of the form `-N` (not
`--NAME`). -/
def shortOf (tok : String) : Option String :=
  match tok.toList with
  | '-' :: '-' :: _ => none
  | '-' :: rest => some (String.mk rest)
  | _ => none

/-- The declared argument an option token refers to, if any. -/
def lookupArg (args : List Arg) (tok : String) : Option Arg :=
  match longOf tok with
  | some l => args.find? (fun a => a.long == some l)
  | none =>
    match shortOf tok with
    | some s => args.find? (fun a => a.short == some s)
    | none => none

/-- The matches produced by parsing an argument vector against the
declaration in `parse_args`: provided values of value-taking options by
argument name, flags present, and (when the `sort` subcommand was
given) the sort flags present. -/
structure ArgMatches where
  values : List (String × String)
  flags : List String
  subcommand : Option (List String)

/-- Modelled from the spec: clap's argument-matching engine is an
external dependency, not code of this repository; §4.1 specifies that
the recognized tokens are the declared option forms and the `sort`
subcommand's flags, and that any invalid flag is a usage error
(termination, modelled as `none`).  Parses the token list following the
`sort` subcommand against `sort_args`. -/
def parse_sort : List String → Option (List String)
  | [] => some []
  | tok :: rest =>
    match lookupArg sort_args tok with
    | some a => (parse_sort rest).map (fun fl => a.name :: fl)
    | none => none

/-- Modelled from the spec: clap's argument-matching engine is an
external dependency, not code of this repository; §4.1 specifies the
recognized global options (value-taking `color` and `rate`, the
`reverse` flag), the `sort` subcommand, and that an invalid flag, an
unknown subcommand, or a missing value for a value-taking option is a
usage error (termination, modelled as `none`). -/
def parse_global : List String → Option ArgMatches
  | [] => some ⟨[], [], none⟩
  | tok :: rest =>
    match lookupArg app_args tok with
    | some a =>
      match a.takes_value, rest with
      | true, v :: rest2 =>
        (parse_global rest2).map (fun m =>
          ⟨(a.name, v) :: m.values, m.flags, m.subcommand⟩)
      | true, [] => none
      | false, r =>
        (parse_global r).map (fun m =>
          ⟨m.values, a.name :: m.flags, m.subcommand⟩)
    | none =>
      match tok == r"sort" with
      | true => (parse_sort rest).map (fun fl => ⟨[], [], some fl⟩)
      | false => none

/-- clap's `value_of`: the provided value of a value-taking option, or
its declared default value when the option was not given. -/
def value_of (m : ArgMatches) (a : Arg) : Option String :=
  match m.values.lookup a.name with
  | some v => some v
  | none => a.default_value

/-- The numeric value of a decimal digit character. -/
def digitVal (c : Char) : Option Nat :=
  if '0' ≤ c && c ≤ '9' then some (c.toNat - '0'.toNat) else none

/-- Decimal evaluation of a character list, left to right. -/
def natFromChars : List Char → Nat → Option Nat
  | [], acc => some acc
  | c :: cs, acc =>
    match digitVal c with
    | some d => natFromChars cs (acc * 10 + d)
    | none => none

/-- Parse a nonempty all-digit string as a natural number. -/
def parseNat (s : String) : Option Nat :=
  match s.toList with
  | [] => none
  | cs => natFromChars cs 0

/-- The resolved configuration the host application derives from the
matches: main color, tick rate in milliseconds, and the reverse/sort
selections. -/
structure OptionSet where
  color : String
  tick_rate_ms : Nat
  reverse : Bool
  sort_size : Bool
  sort_name : Bool

/-- Modelled from the spec: the OptionSet assembly lives in the host
application (`main.rs`, not under `src/`); §3 and §4.1 specify that
`color` and the tick rate come from the (defaulted) option values, the
tick rate parsed as a number, and the booleans from flag presence. -/
def toOptionSet (m : ArgMatches) : Option OptionSet :=
  match value_of m color_arg, (value_of m rate_arg).bind parseNat with
  | some c, some r =>
    some ⟨c, r, m.flags.contains (r"reverse"),
      (m.subcommand.getD []).contains (r"size"),
      (m.subcommand.getD []).contains (r"name")⟩
  | _, _ => none

/-- End-to-end argument parsing: match the argument vector against the
declaration of `parse_args`, then resolve the `OptionSet`.  `none`
models process termination on a usage error. -/
def parse_args (argv : List String) : Option OptionSet :=
  (parse_global argv).bind toOptionSet

/-- The observable result of one `exec_cmd` invocation, with the
underlying command's behavior given as a function from the invocation
(command name and argument list) to the spawn outcome — the shape a
side-effect-free command has. -/
def call_cmd (behavior : String → List String → Spawn)
    (cmd : String) (cmd_args : List String) :
    Option (Except (List Char) (List Char)) :=
  exec_cmd (behavior cmd cmd_args)

/- Helper lemmas about `trim_end`. -/

/-- Every character of a whitespace-takeWhile is whitespace. -/
theorem mem_takeWhile_ws : ∀ {l : List Char} {c : Char},
    c ∈ l.takeWhile rustIsWhitespace → rustIsWhitespace c = true := by
  intro l
  induction l with
  | nil => intro c h; simp [List.takeWhile] at h
  | cons x xs ih =>
    intro c h
    rw [List.takeWhile_cons] at h
    by_cases hx : rustIsWhitespace x
    · rw [if_pos hx] at h
      rcases List.mem_cons.mp h with h1 | h2
      · rw [h1]; exact hx
      · exact ih h2
    · rw [if_neg hx] at h
      simp at h

/-- `trim_end` removes a suffix of the input: the input is the trimmed
text followed by the removed characters. -/
theorem trim_end_append_dropped (s : List Char) :
    trim_end s ++ (s.reverse.takeWhile rustIsWhitespace).reverse = s := by
  unfold trim_end
  rw [← List.reverse_append, List.takeWhile_append_dropWhile,
    List.reverse_reverse]

/-- Every character `trim_end` removes is whitespace. -/
theorem dropped_all_ws (s : List Char) :
    ∀ c ∈ (s.reverse.takeWhile rustIsWhitespace).reverse,
      rustIsWhitespace c = true := by
  intro c hc
  exact mem_takeWhile_ws (List.mem_reverse.mp hc)

/-- `trim_end` removes the whole trailing whitespace run: the trimmed
text does not end in whitespace. -/
theorem trim_end_getLast_not_ws (s : List Char) (c : Char)
    (h : (trim_end s).getLast? = some c) : rustIsWhitespace c = false := by
  unfold trim_end at h
  rw [List.getLast?_reverse] at h
  have hd := List.head?_dropWhile_not rustIsWhitespace s.reverse
  rw [h] at hd
  exact hd

/-- C1: when the launched process exits with success status and its
captured stdout decodes as text, `exec_cmd` returns `Success` of that
text with exactly the trailing whitespace suffix removed. -/
theorem C1_success_returns_trimmed_stdout (o : Output) (s : List Char)
    (h1 : o.success = true) (h2 : utf8Decode o.stdout = some s) :
    exec_cmd (.ok o) = some (.ok (trim_end s)) ∧
    ∃ t, trim_end s ++ t = s ∧ ∀ c ∈ t, rustIsWhitespace c = true := by
  constructor
  · simp [exec_cmd, h1, h2]
  · exact ⟨(s.reverse.takeWhile rustIsWhitespace).reverse,
      trim_end_append_dropped s, dropped_all_ws s⟩

/-- Concrete instance of C1: stdout bytes of `"test\n"` under a
successful exit yield `Success "test"`. -/
theorem C1_witness :
    (Output.mk true [116, 101, 115, 116, 10] []).success = true ∧
    utf8Decode (Output.mk true [116, 101, 115, 116, 10] []).stdout =
      some ['t', 'e', 's', 't', '\n'] ∧
    (exec_cmd (.ok (Output.mk true [116, 101, 115, 116, 10] [])) =
      some (.ok (trim_end ['t', 'e', 's', 't', '\n'])) ∧
     ∃ t, trim_end ['t', 'e', 's', 't', '\n'] ++ t =
        ['t', 'e', 's', 't', '\n'] ∧
       ∀ c ∈ t, rustIsWhitespace c = true) :=
  ⟨rfl, by decide,
    C1_success_returns_trimmed_stdout (Output.mk true [116, 101, 115, 116, 10] [])
      ['t', 'e', 's', 't', '\n'] rfl (by decide)⟩

/-- C2: when the launched process exits with a nonzero status and its
captured stderr decodes as text, `exec_cmd` returns `Failure` of that
text with the trailing whitespace trimmed from the end. -/
theorem C2_failure_returns_trimmed_stderr (o : Output) (s : List Char)
    (h1 : o.success = false) (h2 : utf8Decode o.stderr = some s) :
    exec_cmd (.ok o) = some (.error (trim_end s)) ∧
    ∃ t, trim_end s ++ t = s ∧ ∀ c ∈ t, rustIsWhitespace c = true := by
  constructor
  · simp [exec_cmd, h1, h2]
  · exact ⟨(s.reverse.takeWhile rustIsWhitespace).reverse,
      trim_end_append_dropped s, dropped_all_ws s⟩

/-- Concrete instance of C2: stderr bytes of `"err\n"` under a failed
exit yield `Failure "err"`. -/
theorem C2_witness :
    (Output.mk false [] [101, 114, 114, 10]).success = false ∧
    utf8Decode (Output.mk false [] [101, 114, 114, 10]).stderr =
      some ['e', 'r', 'r', '\n'] ∧
    (exec_cmd (.ok (Output.mk false [] [101, 114, 114, 10])) =
      some (.error (trim_end ['e', 'r', 'r', '\n'])) ∧
     ∃ t, trim_end ['e', 'r', 'r', '\n'] ++ t = ['e', 'r', 'r', '\n'] ∧
       ∀ c ∈ t, rustIsWhitespace c = true) :=
  ⟨rfl, by decide,
    C2_failure_returns_trimmed_stderr (Output.mk false [] [101, 114, 114, 10])
      ['e', 'r', 'r', '\n'] rfl (by decide)⟩

/-- C3: a launch failure is returned (not raised) as a `Failure` value
carrying the message derived from the OS error, through the same result
type as a failed exit. -/
theorem C3_launch_error_returned_as_failure (e : List Char) :
    exec_cmd (.err e) = some (.error e) := rfl

/-- C4: when the relevant captured stream (stdout on a success exit,
stderr on a failure exit) is not valid UTF-8, `exec_cmd` aborts (the
panic of `expect`, modelled as `none`) and returns no `Success` or
`Failure` value at all. -/
theorem C4_invalid_utf8_aborts (o : Output)
    (h : (if o.success then utf8Decode o.stdout else utf8Decode o.stderr)
      = none) :
    exec_cmd (.ok o) = none := by
  cases hs : o.success <;> rw [hs] at h <;> simp at h <;>
    simp [exec_cmd, hs, h]

/-- Concrete instance of C4: a successful exit whose stdout is the
lone invalid byte `0xFF` aborts. -/
theorem C4_witness :
    (if (Output.mk true [0xFF] []).success
      then utf8Decode (Output.mk true [0xFF] []).stdout
      else utf8Decode (Output.mk true [0xFF] []).stderr) = none ∧
    exec_cmd (.ok (Output.mk true [0xFF] [])) = none :=
  ⟨by decide, C4_invalid_utf8_aborts (Output.mk true [0xFF] []) (by decide)⟩

/-- C5: whenever `exec_cmd` returns a value for a process that ran, the
returned text is exactly the decoded captured stream with its trailing
whitespace suffix removed: the text is a verbatim prefix of the raw
stream, only whitespace characters were removed, and they were removed
from the end only (the text ends in a non-whitespace character when
nonempty). -/
theorem C5_returned_text_is_raw_trimmed (o : Output)
    (r : Except (List Char) (List Char))
    (h : exec_cmd (.ok o) = some r) :
    ∃ raw,
      (if o.success then utf8Decode o.stdout else utf8Decode o.stderr)
        = some raw ∧
      resultText r = trim_end raw ∧
      (∃ dropped, trim_end raw ++ dropped = raw ∧
        ∀ c ∈ dropped, rustIsWhitespace c = true) ∧
      ∀ c, (trim_end raw).getLast? = some c →
        rustIsWhitespace c = false := by
  cases hs : o.success <;>
      simp only [exec_cmd, hs, Bool.false_eq_true, if_false, if_true,
        eq_self_iff_true, Option.map_eq_some'] at h <;>
      obtain ⟨raw, hraw, hr⟩ := h
  · refine ⟨raw, by simp [hraw], ?_, ⟨_, trim_end_append_dropped raw,
      dropped_all_ws raw⟩, fun c hc => trim_end_getLast_not_ws raw c hc⟩
    rw [← hr]
    rfl
  · refine ⟨raw, by simp [hraw], ?_, ⟨_, trim_end_append_dropped raw,
      dropped_all_ws raw⟩, fun c hc => trim_end_getLast_not_ws raw c hc⟩
    rw [← hr]
    rfl

/-- Concrete instance of C5: a failed exit with stderr `"err\n"`
returns text `"err"`, the raw stream minus its trailing newline. -/
theorem C5_witness :
    exec_cmd (.ok (Output.mk false [] [101, 114, 114, 10])) =
      some (.error ['e', 'r', 'r']) ∧
    (∃ raw,
      (if (Output.mk false [] [101, 114, 114, 10]).success
        then utf8Decode (Output.mk false [] [101, 114, 114, 10]).stdout
        else utf8Decode (Output.mk false [] [101, 114, 114, 10]).stderr)
        = some raw ∧
      resultText (.error ['e', 'r', 'r']) = trim_end raw ∧
      (∃ dropped, trim_end raw ++ dropped = raw ∧
        ∀ c ∈ dropped, rustIsWhitespace c = true) ∧
      ∀ c, (trim_end raw).getLast? = some c →
        rustIsWhitespace c = false) :=
  ⟨by rfl, C5_returned_text_is_raw_trimmed
    (Output.mk false [] [101, 114, 114, 10]) (.error ['e', 'r', 'r'])
    (by rfl)⟩

/-- C6: any valid argument vector that does not set the `color` or
`rate` options resolves to an `OptionSet` with color `darkgray` and
tick rate 250 (a positive integer). -/
theorem C6_defaults_color_tickrate (argv : List String) (m : ArgMatches)
    (h1 : parse_global argv = some m)
    (h2 : m.values.lookup color_arg.name = none)
    (h3 : m.values.lookup rate_arg.name = none) :
    ∃ os, parse_args argv = some os ∧
      os.color = r"darkgray" ∧ os.tick_rate_ms = 250 ∧
      0 < os.tick_rate_ms := by
  refine ⟨⟨r"darkgray", 250, m.flags.contains (r"reverse"),
    (m.subcommand.getD []).contains (r"size"),
    (m.subcommand.getD []).contains (r"name")⟩, ?_, rfl, rfl, ?_⟩
  · unfold parse_args
    rw [h1]
    show toOptionSet m = _
    unfold toOptionSet value_of
    rw [h2, h3]
    rfl
  · show (0 : Nat) < 250
    decide

/-- Concrete instance of C6: the vector `-r` sets neither option and
resolves to the defaults. -/
theorem C6_witness :
    parse_global [r"-r"] = some (ArgMatches.mk [] [r"reverse"] none) ∧
    (ArgMatches.mk [] [r"reverse"] none).values.lookup color_arg.name
      = none ∧
    (ArgMatches.mk [] [r"reverse"] none).values.lookup rate_arg.name
      = none ∧
    (∃ os, parse_args [r"-r"] = some os ∧ os.color = r"darkgray" ∧
      os.tick_rate_ms = 250 ∧ 0 < os.tick_rate_ms) :=
  ⟨rfl, rfl, rfl,
    C6_defaults_color_tickrate [r"-r"] (ArgMatches.mk [] [r"reverse"] none)
      rfl rfl rfl⟩

/-- A fully parsed global segment with no subcommand composes with any
continuation: parsing the concatenation parses the continuation
independently and concatenates the matches. -/
theorem parse_global_append :
    ∀ (n : Nat) (g : List String), g.length ≤ n →
    ∀ m : ArgMatches, parse_global g = some m → m.subcommand = none →
    ∀ t, parse_global (g ++ t) = (parse_global t).map
      (fun m2 => ⟨m.values ++ m2.values, m.flags ++ m2.flags,
        m2.subcommand⟩) := by
  intro n
  induction n with
  | zero =>
    intro g hlen m hm _ t
    have hg : g = [] := List.eq_nil_of_length_eq_zero (Nat.le_zero.mp hlen)
    subst hg
    simp only [parse_global] at hm
    injection hm with hm
    subst hm
    rw [List.nil_append]
    cases parse_global t with
    | none => simp
    | some m2 => simp
  | succ n ih =>
    intro g hlen m hm hs t
    cases g with
    | nil =>
      simp only [parse_global] at hm
      injection hm with hm
      subst hm
      rw [List.nil_append]
      cases parse_global t with
      | none => simp
      | some m2 => simp
    | cons tok rest =>
      rw [List.cons_append]
      simp only [parse_global] at hm ⊢
      cases hl : lookupArg app_args tok with
      | some a =>
        rw [hl] at hm
        dsimp only at hm ⊢
        cases htv : a.takes_value with
        | true =>
          rw [htv] at hm
          cases rest with
          | nil =>
            dsimp only at hm
            exact absurd hm (by simp)
          | cons v rest2 =>
            rw [List.cons_append]
            dsimp only at hm ⊢
            rw [Option.map_eq_some'] at hm
            obtain ⟨m', hm', hmm⟩ := hm
            subst hmm
            have hs' : m'.subcommand = none := hs
            have hlen' : rest2.length ≤ n := by
              simp only [List.length_cons] at hlen
              omega
            rw [ih rest2 hlen' m' hm' hs' t]
            cases parse_global t with
            | none => simp
            | some m2 => simp
        | false =>
          rw [htv] at hm
          dsimp only at hm ⊢
          rw [Option.map_eq_some'] at hm
          obtain ⟨m', hm', hmm⟩ := hm
          subst hmm
          have hs' : m'.subcommand = none := hs
          have hlen' : rest.length ≤ n := by
            simp only [List.length_cons] at hlen
            omega
          rw [ih rest hlen' m' hm' hs' t]
          cases parse_global t with
          | none => simp
          | some m2 => simp
      | none =>
        rw [hl] at hm
        dsimp only at hm ⊢
        cases hsort : tok == r"sort" with
        | true =>
          rw [hsort] at hm
          dsimp only at hm
          rw [Option.map_eq_some'] at hm
          obtain ⟨fl, _, hmm⟩ := hm
          subst hmm
          exact absurd hs (by simp)
        | false =>
          rw [hsort] at hm
          dsimp only at hm
          exact absurd hm (by simp)

/-- C7: the `sort` subcommand accepts the `size` and `name` flags
simultaneously: appending `sort` with both flags (in short or long
form) to any fully parsed global segment parses successfully and
records both flags in the resulting `OptionSet`; no mutual-exclusion
validation rejects the combination. -/
theorem C7_sort_accepts_both_flags (g : List String) (m : ArgMatches)
    (os : OptionSet) (st nt : String)
    (h1 : parse_global g = some m) (h2 : m.subcommand = none)
    (h3 : toOptionSet m = some os)
    (h4 : st = r"-s" ∨ st = r"--size") (h5 : nt = r"-n" ∨ nt = r"--name") :
    parse_args (g ++ [r"sort", st, nt]) =
      some ⟨os.color, os.tick_rate_ms, os.reverse, true, true⟩ := by
  have htail : parse_global [r"sort", st, nt] =
      some ⟨[], [], some [r"size", r"name"]⟩ := by
    rcases h4 with h4 | h4 <;> rcases h5 with h5 | h5 <;> subst h4 <;>
      subst h5 <;> rfl
  have happ := parse_global_append g.length g (Nat.le_refl _) m h1 h2
    [r"sort", st, nt]
  unfold parse_args
  rw [happ, htail]
  show toOptionSet
      ⟨m.values ++ [], m.flags ++ [], some [r"size", r"name"]⟩ =
    some ⟨os.color, os.tick_rate_ms, os.reverse, true, true⟩
  have hv : ∀ a : Arg,
      value_of ⟨m.values ++ [], m.flags ++ [], some [r"size", r"name"]⟩ a
        = value_of m a := by
    intro a
    unfold value_of
    rw [List.append_nil]
  unfold toOptionSet at h3 ⊢
  rw [hv color_arg, hv rate_arg]
  cases hcv : value_of m color_arg with
  | none =>
    rw [hcv] at h3
    dsimp only at h3
    exact absurd h3 (by simp)
  | some c =>
    cases hrv : (value_of m rate_arg).bind parseNat with
    | none =>
      rw [hcv, hrv] at h3
      dsimp only at h3
      exact absurd h3 (by simp)
    | some rr =>
      rw [hcv, hrv] at h3
      dsimp only at h3 ⊢
      injection h3 with h3
      subst h3
      dsimp only
      rw [List.append_nil]
      rfl

/-- Concrete instance of C7: `sort -s -n` on an empty global segment
parses to the default options with both sort flags set. -/
theorem C7_witness :
    parse_global [] = some (ArgMatches.mk [] [] none) ∧
    (ArgMatches.mk [] [] none).subcommand = none ∧
    toOptionSet (ArgMatches.mk [] [] none) =
      some (OptionSet.mk (r"darkgray") 250 false false false) ∧
    ((r"-s" : String) = r"-s" ∨ (r"-s" : String) = r"--size") ∧
    ((r"-n" : String) = r"-n" ∨ (r"-n" : String) = r"--name") ∧
    parse_args ([] ++ [r"sort", r"-s", r"-n"]) =
      some ⟨(OptionSet.mk (r"darkgray") 250 false false false).color,
        (OptionSet.mk (r"darkgray") 250 false false false).tick_rate_ms,
        (OptionSet.mk (r"darkgray") 250 false false false).reverse,
        true, true⟩ :=
  ⟨rfl, rfl, rfl, Or.inl rfl, Or.inl rfl,
    C7_sort_accepts_both_flags [] (ArgMatches.mk [] [] none)
      (OptionSet.mk (r"darkgray") 250 false false false)
      (r"-s") (r"-n") rfl rfl rfl (Or.inl rfl) (Or.inl rfl)⟩

/-- C8: `exec_cmd` keeps no state between invocations — its result is a
function of the spawn outcome alone.  For a side-effect-free command,
whose spawn outcome is a function of the invocation, two invocations
with identical command and arguments therefore return equal
`CommandResult` values. -/
theorem C8_pure_command_repeatable
    (behavior : String → List String → Spawn)
    (cmd₁ cmd₂ : String) (args₁ args₂ : List String)
    (h1 : cmd₁ = cmd₂) (h2 : args₁ = args₂) :
    call_cmd behavior cmd₁ args₁ = call_cmd behavior cmd₂ args₂ := by
  rw [h1, h2]

/-- Concrete instance of C8: two identical `printf test` invocations of
a pure behavior agree. -/
theorem C8_witness :
    (r"printf" : String) = r"printf" ∧
    ([r"test"] : List String) = [r"test"] ∧
    call_cmd (fun _ _ => .ok (Output.mk true [116, 101, 115, 116] []))
        (r"printf") [r"test"] =
      call_cmd (fun _ _ => .ok (Output.mk true [116, 101, 115, 116] []))
        (r"printf") [r"test"] :=
  ⟨rfl, rfl,
    C8_pure_command_repeatable
      (fun _ _ => .ok (Output.mk true [116, 101, 115, 116] []))
      (r"printf") (r"printf") [r"test"] [r"test"] rfl rfl⟩

/-- C9: the key-binding reference `KEY_BINDINGS` is a fixed constant
list of exactly 15 entries, in a fixed order (witnessed here by its
first and last entries); as a Lean constant of the embedding, no
operation of the system can mutate it. -/
theorem C9_key_bindings_fixed :
    KEY_BINDINGS.length = 15 ∧
    KEY_BINDINGS.head? = some (r"'?', f1", r"help") ∧
    KEY_BINDINGS.getLast? = some (r"q, ctrl-c/d, esc", r"quit") :=
  ⟨rfl, rfl, rfl⟩

/-- C10: `exec_cmd` classifies by exit status alone: under a success
status the result does not depend on the captured stderr bytes, and
under a failure status it does not depend on the captured stdout
bytes. -/
theorem C10_classification_by_exit_status_only :
    (∀ (so e₁ e₂ : List Nat),
      exec_cmd (.ok (Output.mk true so e₁)) =
        exec_cmd (.ok (Output.mk true so e₂))) ∧
    (∀ (se o₁ o₂ : List Nat),
      exec_cmd (.ok (Output.mk false o₁ se)) =
        exec_cmd (.ok (Output.mk false o₂ se))) :=
  ⟨fun _ _ _ => rfl, fun _ _ _ => rfl⟩

end Kmon
